import Mathlib

/-!
# Verification of `dso-data-schema-randomizer` (src/main.py)

Shallow embedding of the `DataSchemaRandomizer` class from `src/main.py`.
The tool reads a JSON / XML / CSV document and replaces every key, tag and
leaf value with a freshly generated random substitute of matching kind,
preserving the structural shape of the input.

The Faker instance (`self.fake`) is modelled as a family of indexed streams
(`RVP`): the k-th call of a generator method returns the stream's value at
index k.  Each embedded function takes the current stream position `n` and
returns, alongside its result, the number of generator calls it performed;
its caller continues at `n +` that count.  This captures "each call returns
an independent fresh value" while letting theorems quantify over all
possible random outcomes.
-/

/-- Random Value Provider: the Faker collaborator, modelled as indexed
streams of the four generator methods used by `src/main.py`
(`fake.word`, `fake.random_int`, `fake.pyfloat`, `fake.boolean`).
Floats are represented as rationals; their numeric value is never
inspected by the program, only carried. -/
structure RVP where
  word : Nat → String
  random_int : Nat → Int
  pyfloat : Nat → Rat
  boolean : Nat → Bool

/-- Parsed JSON values, as produced by `json.loads`: Python `str`, `int`,
`float`, `bool`, `list`, `dict` (entries in insertion order, string keys)
and `None` (also the target of the `return None` fallback on line 66). -/
inductive Json where
  | str (s : String)
  | int (i : Int)
  | float (x : Rat)
  | bool (b : Bool)
  | list (l : List Json)
  | dict (entries : List (String × Json))
  | null

/-- Number of top-level keys of a JSON value (0 for non-dicts).  A Python
dict holds each key once, which for the assoc-list representation means the
key list is duplicate-free; `randomize_entries` below only ever builds such
lists because `dictSet` never duplicates a key. -/
def Json.topKeyCount : Json → Nat
  | .dict d => d.length
  | _ => 0

/-- Whether the value is a Python `dict`, i.e. `isinstance(input_data, dict)`
on line 47 of src/main.py. -/
def Json.isDict : Json → Bool
  | .dict _ => true
  | _ => false

/-- Python dict item assignment `d[k] = v`: if `k` is already a key, its
value is overwritten in place (the entry keeps its position); otherwise the
new entry is appended in insertion order. -/
def dictSet (d : List (String × Json)) (k : String) (v : Json) : List (String × Json) :=
  if d.any (fun kv => decide (kv.1 = k)) then
    d.map (fun kv => if kv.1 = k then (k, v) else kv)
  else d ++ [(k, v)]

mutual

/-- `randomize_value` (src/main.py lines 51-66), dispatching on the runtime
type of `value`.  In CPython `bool` is a subclass of `int`, so for a boolean
input the `isinstance(value, int)` test on line 55 is already true and the
integer branch runs; the `isinstance(value, bool)` branch on line 59 is
unreachable.  The `.bool` case below therefore mirrors the integer branch
(line 56), not line 60.  The nested call `self.randomize_json_schema(value)`
on line 64 always receives a dict and never takes the TypeError branch, so
it is embedded as `randomize_entries` on the entries, which is exactly what
lines 68-72 then compute.  Returns the new value and the number of
generator calls made. -/
def randomize_value (p : RVP) (v : Json) (n : Nat) : Json × Nat :=
  match v with
  | .str _ => (.str (p.word n), 1)
  | .int _ => (.int (p.random_int n), 1)
  | .bool _ => (.int (p.random_int n), 1)
  | .float _ => (.float (p.pyfloat n), 1)
  | .list l =>
      let r := randomize_list p l n
      (.list r.1, r.2)
  | .dict d =>
      let r := randomize_entries p [] d n
      (.dict r.1, r.2)
  | .null => (.null, 0)
termination_by sizeOf v

/-- The list comprehension on line 62: each item randomized in order,
left to right. -/
def randomize_list (p : RVP) (l : List Json) (n : Nat) : List Json × Nat :=
  match l with
  | [] => ([], 0)
  | v :: rest =>
      let r1 := randomize_value p v n
      let r2 := randomize_list p rest (n + r1.2)
      (r1.1 :: r2.1, r1.2 + r2.2)
termination_by sizeOf l

/-- The loop on lines 68-71 over `input_data.items()` (insertion order),
threading the accumulated `randomized_data` dict.  For the statement
`randomized_data[self.fake.word()] = randomize_value(value)` Python
evaluates the right-hand side first and only then the subscript key, so the
value's generator calls precede the key's `fake.word()` call. -/
def randomize_entries (p : RVP) (acc : List (String × Json))
    (items : List (String × Json)) (n : Nat) : List (String × Json) × Nat :=
  match items with
  | [] => (acc, 0)
  | (_, v) :: rest =>
      let r1 := randomize_value p v n
      let k := p.word (n + r1.2)
      let r2 := randomize_entries p (dictSet acc k r1.1) rest (n + r1.2 + 1)
      (r2.1, r1.2 + 1 + r2.2)
termination_by sizeOf items

end

/-- Error raised by `randomize_json_schema` on non-dict input
(lines 47-49; the `logging.error` side effect is not modelled). -/
inductive JsonError where
  | typeError (msg : String)

/-- `randomize_json_schema` (src/main.py lines 36-72): raises TypeError if
the input is not a dict, otherwise builds a fresh dict with randomized keys
and recursively randomized values. -/
def randomize_json_schema (p : RVP) (input_data : Json) (n : Nat) :
    Except JsonError (Json × Nat) :=
  match input_data with
  | .dict d =>
      let r := randomize_entries p [] d n
      .ok (.dict r.1, r.2)
  | _ => .error (.typeError "Input data must be a dictionary for JSON format.")

/-- A provider whose word stream is constant: every `fake.word()` call
returns the same word.  Used to exhibit key collisions. -/
def constProv : RVP :=
  ⟨fun _ => "x", fun _ => 0, fun _ => 0, fun _ => true⟩

/-- A provider whose word stream is injective (the word at index n is the
string of n copies of the letter a), so distinct calls yield distinct
words. -/
def wordsInj : RVP :=
  ⟨fun n => String.mk (List.replicate n 'a'), fun n => (n : Int),
   fun _ => 0, fun _ => true⟩

/-- The provider's word stream never returns the same word at two distinct
positions. -/
def WordsInjective (p : RVP) : Prop :=
  ∀ i j, p.word i = p.word j → i = j

theorem wordsInj_injective : WordsInjective wordsInj := by
  intro i j h
  have h2 : (List.replicate i 'a').length = (List.replicate j 'a').length :=
    congrArg (fun s => s.data.length) h
  simpa using h2

theorem randomize_list_length (p : RVP) (l : List Json) :
    ∀ n, (randomize_list p l n).1.length = l.length := by
  induction l with
  | nil => intro n; simp [randomize_list]
  | cons v rest ih => intro n; simp [randomize_list, ih]

theorem randomize_list_elems (p : RVP) (l : List Json) :
    ∀ n, List.Forall₂ (fun a b => ∃ m, b = (randomize_value p a m).1)
      l (randomize_list p l n).1 := by
  induction l with
  | nil => intro n; simp [randomize_list]
  | cons v rest ih =>
      intro n
      simp only [randomize_list]
      exact List.Forall₂.cons ⟨n, rfl⟩ (ih _)

/-- Structural shape of a JSON value: nesting and sequence lengths, with key
names and leaf payloads erased (the spec's "structural isomorphism": same
nesting, same sequence lengths, only names and leaf values differ). -/
inductive Shape where
  | leaf
  | list (l : List Shape)
  | dict (l : List Shape)

mutual

/-- Shape of a JSON value. -/
def shapeOf : Json → Shape
  | .str _ => .leaf
  | .int _ => .leaf
  | .float _ => .leaf
  | .bool _ => .leaf
  | .list l => .list (shapeList l)
  | .dict d => .dict (shapeEntries d)
  | .null => .leaf
termination_by v => sizeOf v

/-- Shapes of the elements of a JSON list, in order. -/
def shapeList : List Json → List Shape
  | [] => []
  | v :: rest => shapeOf v :: shapeList rest
termination_by l => sizeOf l

/-- Shapes of the values of a dict's entries, in order. -/
def shapeEntries : List (String × Json) → List Shape
  | [] => []
  | (_, v) :: rest => shapeOf v :: shapeEntries rest
termination_by d => sizeOf d

end

theorem shapeEntries_append (a b : List (String × Json)) :
    shapeEntries (a ++ b) = shapeEntries a ++ shapeEntries b := by
  induction a with
  | nil => simp [shapeEntries]
  | cons kv rest ih =>
      obtain ⟨k, v⟩ := kv
      simp [shapeEntries, ih]

theorem shapeEntries_length (d : List (String × Json)) :
    (shapeEntries d).length = d.length := by
  induction d with
  | nil => simp [shapeEntries]
  | cons kv rest ih =>
      obtain ⟨k, v⟩ := kv
      simp [shapeEntries, ih]

theorem dictSet_fresh (d : List (String × Json)) (k : String) (v : Json)
    (h : ∀ kv ∈ d, kv.1 ≠ k) : dictSet d k v = d ++ [(k, v)] := by
  have hfalse : d.any (fun kv => decide (kv.1 = k)) = false := by
    simp only [List.any_eq_false, decide_eq_true_eq]
    exact h
  simp [dictSet, hfalse]

/-- Every key of the accumulated dict was generated by a `fake.word()` call
at a stream position below `n` (the loop invariant of lines 68-71). -/
def KeysBelow (p : RVP) (acc : List (String × Json)) (n : Nat) : Prop :=
  ∀ kv ∈ acc, ∃ i, i < n ∧ kv.1 = p.word i

mutual

theorem shape_randomize_value (p : RVP) (hp : WordsInjective p) (v : Json) (n : Nat) :
    shapeOf ((randomize_value p v n).1) = shapeOf v := by
  cases v with
  | str s => simp [randomize_value, shapeOf]
  | int i => simp [randomize_value, shapeOf]
  | float x => simp [randomize_value, shapeOf]
  | bool b => simp [randomize_value, shapeOf]
  | null => simp [randomize_value, shapeOf]
  | list l =>
      have h := shape_randomize_list p hp l n
      simp [randomize_value, shapeOf, h]
  | dict d =>
      have h := shape_randomize_entries p hp d [] n (by intro kv hkv; simp at hkv)
      simp [randomize_value, shapeOf, h, shapeEntries]
termination_by sizeOf v

theorem shape_randomize_list (p : RVP) (hp : WordsInjective p) (l : List Json) (n : Nat) :
    shapeList ((randomize_list p l n).1) = shapeList l := by
  cases l with
  | nil => simp [randomize_list]
  | cons v rest =>
      have h1 := shape_randomize_value p hp v n
      have h2 := shape_randomize_list p hp rest (n + (randomize_value p v n).2)
      simp [randomize_list, shapeList, h1, h2]
termination_by sizeOf l

theorem shape_randomize_entries (p : RVP) (hp : WordsInjective p)
    (items : List (String × Json)) :
    ∀ (acc : List (String × Json)) (n : Nat), KeysBelow p acc n →
      shapeEntries ((randomize_entries p acc items n).1)
        = shapeEntries acc ++ shapeEntries items := by
  cases items with
  | nil =>
      intro acc n _
      simp [randomize_entries, shapeEntries]
  | cons kv rest =>
      intro acc n hacc
      obtain ⟨k0, v⟩ := kv
      have hval := shape_randomize_value p hp v n
      have hfresh : ∀ kv2 ∈ acc, kv2.1 ≠ p.word (n + (randomize_value p v n).2) := by
        intro kv2 hkv2 heq
        obtain ⟨i, hi, hkey⟩ := hacc kv2 hkv2
        have hij := hp i (n + (randomize_value p v n).2) (by rw [← hkey, heq])
        omega
      have hset := dictSet_fresh acc (p.word (n + (randomize_value p v n).2))
        (randomize_value p v n).1 hfresh
      have hacc2 : KeysBelow p
          (acc ++ [(p.word (n + (randomize_value p v n).2), (randomize_value p v n).1)])
          (n + (randomize_value p v n).2 + 1) := by
        intro kv2 hkv2
        rcases List.mem_append.1 hkv2 with h1 | h1
        · obtain ⟨i, hi, hkey⟩ := hacc kv2 h1
          exact ⟨i, by omega, hkey⟩
        · simp only [List.mem_singleton] at h1
          exact ⟨n + (randomize_value p v n).2, by omega, by rw [h1]⟩
      have ih := shape_randomize_entries p hp rest
        (acc ++ [(p.word (n + (randomize_value p v n).2), (randomize_value p v n).1)])
        (n + (randomize_value p v n).2 + 1) hacc2
      simp only [randomize_entries, hset, ih, shapeEntries_append, shapeEntries, hval]
      simp [shapeEntries]
termination_by sizeOf items

end

/-- C1: a boolean leaf is NOT dispatched as boolean.  Because CPython's
`bool` is a subclass of `int`, the `isinstance(value, int)` test on line 55
of src/main.py catches booleans first, so `randomize_value` replaces a
boolean input with a random integer (`fake.random_int()`), never reaching
the `isinstance(value, bool)` branch of line 59; the output kind is
integer, not boolean. -/
theorem bool_input_randomized_as_integer (p : RVP) (b : Bool) (n : Nat) :
    randomize_value p (.bool b) n = (.int (p.random_int n), 1) := by
  simp [randomize_value]

/-- C2 counterexample: with a random stream whose words collide (here the
constant stream), the two generated top-level keys coincide, the second
assignment overwrites the first, and the output dict has 1 key while the
input had 2 — so the key count is not preserved for every random stream. -/
theorem key_collision_shrinks_output_cex :
    randomize_json_schema constProv (Json.dict [("a", Json.int 1), ("b", Json.int 2)]) 0
      = .ok (.dict [("x", Json.int 0)], 4)
    ∧ (Json.dict [("x", Json.int 0)]).topKeyCount
        ≠ (Json.dict [("a", Json.int 1), ("b", Json.int 2)]).topKeyCount := by
  constructor
  · simp [randomize_json_schema, randomize_entries, randomize_value, dictSet, constProv]
  · decide

/-- C2 (amended): for every input mapping, `randomize_json_schema` returns a
mapping, and it has exactly as many top-level keys as the input whenever the
provider's word stream never repeats a word (distinct generated keys); with
repeated words, entries are overwritten and the count can shrink. -/
theorem top_level_key_count_preserved (p : RVP) (hp : WordsInjective p)
    (d : List (String × Json)) (n : Nat) :
    ∃ d2 c, randomize_json_schema p (.dict d) n = .ok (.dict d2, c)
      ∧ (Json.dict d2).topKeyCount = (Json.dict d).topKeyCount := by
  refine ⟨(randomize_entries p [] d n).1, (randomize_entries p [] d n).2, ?_, ?_⟩
  · simp [randomize_json_schema]
  · have h := shape_randomize_entries p hp d [] n (by intro kv hkv; simp at hkv)
    have h2 := congrArg List.length h
    simpa [Json.topKeyCount, shapeEntries_length, shapeEntries] using h2

theorem top_level_key_count_preserved_witness :
    ∃ d2 c, randomize_json_schema wordsInj
        (.dict [("a", Json.int 1), ("b", Json.int 2)]) 0 = .ok (.dict d2, c)
      ∧ (Json.dict d2).topKeyCount
          = (Json.dict [("a", Json.int 1), ("b", Json.int 2)]).topKeyCount :=
  top_level_key_count_preserved wordsInj wordsInj_injective
    [("a", Json.int 1), ("b", Json.int 2)] 0

/-- C3 counterexample: re-applying the transform to its own output always
succeeds, but the second output need not have the same shape as the first:
a colliding word stream in the second run merges keys, so the second output
has 1 top-level entry where the first had 2. -/
theorem reapply_shape_not_preserved_cex :
    randomize_json_schema wordsInj (Json.dict [("a", Json.int 1), ("b", Json.int 2)]) 0
      = .ok (.dict [("a", Json.int 0), ("aaa", Json.int 2)], 4)
    ∧ randomize_json_schema constProv
        (Json.dict [("a", Json.int 0), ("aaa", Json.int 2)]) 0
      = .ok (.dict [("x", Json.int 0)], 4)
    ∧ shapeOf (Json.dict [("x", Json.int 0)])
        ≠ shapeOf (Json.dict [("a", Json.int 0), ("aaa", Json.int 2)]) := by
  refine ⟨?_, ?_, ?_⟩
  · simp [randomize_json_schema, randomize_entries, randomize_value, dictSet, wordsInj]
  · simp [randomize_json_schema, randomize_entries, randomize_value, dictSet, constProv]
  · simp [shapeOf, shapeEntries]

/-- C3 (amended): feeding any successful output of `randomize_json_schema`
back in always succeeds without error, for every random stream driving the
second run — colliding streams included — since every produced value kind
(word, integer, float, list, mapping, None) is accepted again; and the
second output has the same shape as the first whenever the second run's
word stream never repeats a word (with key collisions the dict key counts
can shrink). -/
theorem reapply_succeeds_and_preserves_shape (p q : RVP)
    (d : List (String × Json)) (n m : Nat) (o1 : Json) (c1 : Nat)
    (h1 : randomize_json_schema p (.dict d) n = .ok (o1, c1)) :
    ∃ o2 c2, randomize_json_schema q o1 m = .ok (o2, c2)
      ∧ (WordsInjective q → shapeOf o2 = shapeOf o1) := by
  have ho1 : Json.dict (randomize_entries p [] d n).1 = o1 := by
    simp [randomize_json_schema] at h1
    exact h1.1
  refine ⟨.dict (randomize_entries q [] (randomize_entries p [] d n).1 m).1,
    (randomize_entries q [] (randomize_entries p [] d n).1 m).2, ?_, ?_⟩
  · rw [← ho1]; simp [randomize_json_schema]
  · intro hq
    rw [← ho1]
    have h := shape_randomize_entries q hq (randomize_entries p [] d n).1 [] m
      (by intro kv hkv; simp at hkv)
    simp [shapeOf, h, shapeEntries]

theorem reapply_succeeds_and_preserves_shape_witness :
    ∃ o2 c2, randomize_json_schema wordsInj (Json.dict [("x", Json.int 0)]) 0
        = .ok (o2, c2)
      ∧ (WordsInjective wordsInj → shapeOf o2 = shapeOf (Json.dict [("x", Json.int 0)])) :=
  reapply_succeeds_and_preserves_shape constProv wordsInj
    [("a", Json.int 1)] 0 0 (Json.dict [("x", Json.int 0)]) 2
    (by simp [randomize_json_schema, randomize_entries, randomize_value, dictSet, constProv])

/-- C4: for every list value (at any depth, since the statement quantifies
over arbitrary lists of arbitrary nested values), `randomize_value` returns
a list of the same length whose i-th element is the result of applying the
same dispatch rule `randomize_value` to the i-th input element. -/
theorem nested_list_length_preserved (p : RVP) (l : List Json) (n : Nat) :
    ∃ l2 c, randomize_value p (.list l) n = (.list l2, c)
      ∧ l2.length = l.length
      ∧ List.Forall₂ (fun a b => ∃ m, b = (randomize_value p a m).1) l l2 := by
  refine ⟨(randomize_list p l n).1, (randomize_list p l n).2, ?_, ?_, ?_⟩
  · simp [randomize_value]
  · exact randomize_list_length p l n
  · exact randomize_list_elems p l n

/-- C7: whenever the top-level parsed JSON value is not a mapping,
`randomize_json_schema` raises the TypeError of lines 47-49 and produces no
output. -/
theorem nondict_input_type_error (p : RVP) (v : Json) (n : Nat)
    (h : v.isDict = false) :
    randomize_json_schema p v n
      = .error (.typeError "Input data must be a dictionary for JSON format.") := by
  cases v <;> simp_all [randomize_json_schema, Json.isDict]

theorem nondict_input_type_error_witness :
    randomize_json_schema constProv (Json.list [Json.int 1, Json.int 2, Json.int 3]) 0
      = .error (.typeError "Input data must be a dictionary for JSON format.") :=
  nondict_input_type_error constProv (Json.list [Json.int 1, Json.int 2, Json.int 3]) 0 rfl

/-- A parsed XML element as produced by `xml.etree.ElementTree.fromstring`:
a tag name, the optional direct text content (`element.text`, which is
`None` when absent), and the ordered list of child elements.  Attributes,
tails, comments and processing instructions are never touched by
`randomize_element` and are not modelled. -/
inductive XmlElem where
  | mk (tag : String) (text : Option String) (children : List XmlElem)

mutual

/-- `randomize_element` (src/main.py lines 90-96): depth-first pre-order
traversal.  For each element: `element.tag = self.fake.word()` (line 92);
then `if element.text:` — Python truthiness, i.e. text present and
non-empty — `element.text = self.fake.word()` (lines 93-94), otherwise the
text is left exactly as it was (`None` stays `None`, `""` stays `""`);
then the children are traversed in document order (lines 95-96).  The
in-place mutation is modelled by returning the new tree together with the
number of generator calls made. -/
def randomize_element (p : RVP) (e : XmlElem) (n : Nat) : XmlElem × Nat :=
  match e with
  | .mk _ text children =>
      let tag2 := p.word n
      let tr : Option String × Nat :=
        match text with
        | some s => if s = "" then (some s, 1) else (some (p.word (n + 1)), 2)
        | none => (none, 1)
      let rc := randomize_children p children (n + tr.2)
      (.mk tag2 tr.1 rc.1, tr.2 + rc.2)
termination_by sizeOf e

/-- The `for child in element` loop of lines 95-96, in document order. -/
def randomize_children (p : RVP) (l : List XmlElem) (n : Nat) : List XmlElem × Nat :=
  match l with
  | [] => ([], 0)
  | e :: rest =>
      let r1 := randomize_element p e n
      let r2 := randomize_children p rest (n + r1.2)
      (r1.1 :: r2.1, r1.2 + r2.2)
termination_by sizeOf l

end

mutual

/-- Relation between an input element and its randomized counterpart:
if the input's direct text is absent or empty it is left exactly as it was;
if it is non-empty it becomes some freshly drawn word of the provider's
stream; and the children correspond pairwise in order, recursively, so the
relation covers the root and every descendant. -/
def TextRel (p : RVP) : XmlElem → XmlElem → Prop
  | .mk _ t c, .mk _ t2 c2 =>
      ((t = none ∨ t = some "") → t2 = t)
      ∧ (∀ s, t = some s → s ≠ "" → ∃ m, t2 = some (p.word m))
      ∧ TextRelChildren p c c2
termination_by e _ => sizeOf e

/-- Pairwise `TextRel` between two child lists of equal length. -/
def TextRelChildren (p : RVP) : List XmlElem → List XmlElem → Prop
  | [], [] => True
  | e :: rest, f :: rest2 => TextRel p e f ∧ TextRelChildren p rest rest2
  | _, _ => False
termination_by l _ => sizeOf l

end

mutual

theorem element_text_rel (p : RVP) (e : XmlElem) (n : Nat) :
    TextRel p e (randomize_element p e n).1 := by
  cases e with
  | mk tag text children =>
      cases text with
      | none =>
          have hc := children_text_rel p children (n + 1)
          simp [randomize_element, TextRel, hc]
      | some s =>
          by_cases hs : s = ""
          · subst hs
            have hc := children_text_rel p children (n + 1)
            simp [randomize_element, TextRel, hc]
          · have hc := children_text_rel p children (n + 2)
            simp [randomize_element, TextRel, hs, hc]
termination_by sizeOf e

theorem children_text_rel (p : RVP) (l : List XmlElem) (n : Nat) :
    TextRelChildren p l (randomize_children p l n).1 := by
  cases l with
  | nil => simp [randomize_children, TextRelChildren]
  | cons e rest =>
      have h1 := element_text_rel p e n
      have h2 := children_text_rel p rest (n + (randomize_element p e n).2)
      simp [randomize_children, TextRelChildren, h1, h2]
termination_by sizeOf l

end

/-- C5: for every parsed XML tree and every element of it (root and every
descendant, via the recursive pairwise relation `TextRel`): an element with
non-empty direct text gets a freshly generated random word as text, and an
element whose text is absent (`None`) or empty keeps exactly that absent /
empty text. -/
theorem element_text_randomization_ok (p : RVP) (e : XmlElem) (n : Nat) :
    TextRel p e (randomize_element p e n).1 :=
  element_text_rel p e n

/-- Split a character list at every occurrence of `sep`; the accumulator
holds the current chunk reversed.  Auxiliary for the string models below. -/
def splitChar (sep : Char) : List Char → List Char → List (List Char)
  | [], cur => [cur.reverse]
  | c :: rest, cur =>
      if c = sep then cur.reverse :: splitChar sep rest []
      else splitChar sep rest (c :: cur)

/-- Python `str.splitlines` (line 112), modelled for newline-separated
text: splits at every linefeed and, unlike a plain split, yields no entry
after a final newline (so the empty string has zero lines). -/
def splitlines (s : String) : List String :=
  let parts := (splitChar '\n' s.data []).map String.mk
  if parts.getLast? = some "" then parts.dropLast else parts

/-- One line handed to `csv.reader` (line 112), modelled for cells without
quoting (the spec treats quoting as a parser-library concern): a blank line
yields a row with no cells, any other line is split at commas. -/
def parseLine (line : String) : List String :=
  if line = "" then [] else (splitChar ',' line.data []).map String.mk

/-- `list(csv.reader(input_csv.splitlines()))` (lines 112-113). -/
def csvRows (input_csv : String) : List (List String) :=
  (splitlines input_csv).map parseLine

/-- The comprehension `[self.fake.word() for _ in row]` (lines 122 and
127): one fresh word per original cell. -/
def randomize_row (p : RVP) (row : List String) (n : Nat) : List String × Nat :=
  match row with
  | [] => ([], 0)
  | _ :: rest =>
      let r := randomize_row p rest (n + 1)
      (p.word n :: r.1, 1 + r.2)

/-- The loop over `rows[1:]` (lines 126-128), in original row order. -/
def randomize_rows (p : RVP) (rows : List (List String)) (n : Nat) :
    List (List String) × Nat :=
  match rows with
  | [] => ([], 0)
  | row :: rest =>
      let r1 := randomize_row p row n
      let r2 := randomize_rows p rest (n + r1.2)
      (r1.1 :: r2.1, r1.2 + r2.2)

/-- Python `",".join(row)` (line 132). -/
def joinRow : List String → String
  | [] => ""
  | [c] => c
  | c :: rest => c ++ "," ++ joinRow rest

/-- The output assembly loop of lines 130-132: rows comma-joined, each
terminated by a newline, concatenated in row order. -/
def serializeRows (rows : List (List String)) : String :=
  rows.foldl (fun out row => out ++ joinRow row ++ "\n") ""

/-- Result of `randomize_csv_schema`: the output text, the number of
generator calls made, and whether the empty-input warning of line 116 was
logged.  The function always returns normally (it has no raise path). -/
structure CsvResult where
  output : String
  consumed : Nat
  warned : Bool

/-- `randomize_csv_schema` (src/main.py lines 102-133): parse the input
into rows; with zero rows log a warning and return the empty string
(lines 115-117); otherwise randomize the header cell-for-cell, then each
remaining row cell-for-cell, and reassemble the text. -/
def randomize_csv_schema (p : RVP) (input_csv : String) (n : Nat) : CsvResult :=
  match csvRows input_csv with
  | [] => ⟨"", 0, true⟩
  | header :: rest =>
      let r1 := randomize_row p header n
      let r2 := randomize_rows p rest (n + r1.2)
      ⟨serializeRows (r1.1 :: r2.1), r1.2 + r2.2, false⟩

theorem randomize_row_length (p : RVP) (row : List String) :
    ∀ n, (randomize_row p row n).1.length = row.length := by
  induction row with
  | nil => intro n; simp [randomize_row]
  | cons c rest ih => intro n; simp [randomize_row, ih]

theorem randomize_rows_lengths (p : RVP) (rows : List (List String)) :
    ∀ n, List.Forall₂ (fun r r2 => r2.length = r.length)
      rows (randomize_rows p rows n).1 := by
  induction rows with
  | nil => intro n; simp [randomize_rows]
  | cons row rest ih =>
      intro n
      simp only [randomize_rows]
      exact List.Forall₂.cons (randomize_row_length p row n) (ih _)

/-- C8: for every CSV input that parses to zero rows (e.g. the empty
string), `randomize_csv_schema` returns exactly the empty string, logs the
"CSV file is empty." warning, and raises no exception (its return type has
no error case: the function always returns normally). -/
theorem empty_csv_returns_empty_string (p : RVP) (input_csv : String) (n : Nat)
    (h : csvRows input_csv = []) :
    randomize_csv_schema p input_csv n = ⟨"", 0, true⟩ := by
  unfold randomize_csv_schema
  rw [h]

theorem empty_csv_returns_empty_string_witness :
    randomize_csv_schema constProv "" 0 = ⟨"", 0, true⟩ :=
  empty_csv_returns_empty_string constProv "" 0 rfl

/-- C6: for every CSV input parsing to at least one row, the output is the
serialization (rows comma-joined, each terminated by a newline, in the
original order) of a row list with exactly as many rows as the input, the
i-th of which has exactly as many cells as the i-th input row. -/
theorem csv_shape_and_serialization (p : RVP) (input_csv : String) (n : Nat)
    (header : List String) (rest : List (List String))
    (h : csvRows input_csv = header :: rest) :
    ∃ rows2 c,
      randomize_csv_schema p input_csv n = ⟨serializeRows rows2, c, false⟩
      ∧ rows2.length = (header :: rest).length
      ∧ List.Forall₂ (fun r r2 => r2.length = r.length) (header :: rest) rows2 := by
  refine ⟨(randomize_row p header n).1
      :: (randomize_rows p rest (n + (randomize_row p header n).2)).1,
    (randomize_row p header n).2
      + (randomize_rows p rest (n + (randomize_row p header n).2)).2, ?_, ?_, ?_⟩
  · unfold randomize_csv_schema
    rw [h]
  · have h2 := (randomize_rows_lengths p rest (n + (randomize_row p header n).2)).length_eq
    simp [h2]
  · exact List.Forall₂.cons (randomize_row_length p header n)
      (randomize_rows_lengths p rest (n + (randomize_row p header n).2))

theorem csv_shape_and_serialization_witness :
    ∃ rows2 c,
      randomize_csv_schema constProv "a,b\nc" 0 = ⟨serializeRows rows2, c, false⟩
      ∧ rows2.length = ([["a", "b"], ["c"]] : List (List String)).length
      ∧ List.Forall₂ (fun r r2 => r2.length = r.length)
          ([["a", "b"], ["c"]] : List (List String)) rows2 :=
  csv_shape_and_serialization constProv "a,b\nc" 0 ["a", "b"] [["c"]] rfl

/-- Python `str.lower` for ASCII text (the format strings compared on
line 33 are ASCII): lowercase every character. -/
def strLower (s : String) : String := String.mk (s.data.map Char.toLower)

/-- The membership list of line 33 of src/main.py. -/
def supported_formats : List String := ["json", "xml", "csv"]

/-- The randomizer object: only the stored `data_format` matters for the
construction-time check; the file paths and the Faker instance are I/O
collaborators and are not modelled. -/
structure DataSchemaRandomizer where
  data_format : String

/-- `DataSchemaRandomizer.__init__` (src/main.py lines 18-34): stores the
LOWERCASED format (line 28: `data_format.lower()`), then raises ValueError
at construction — before any input is read or processed — when that
lowercased format is not one of json, xml, csv (lines 33-34). -/
def DataSchemaRandomizer.init (data_format : String) :
    Except String DataSchemaRandomizer :=
  let fmt := strLower data_format
  if supported_formats.contains fmt then .ok ⟨fmt⟩
  else .error ("Unsupported data format: " ++ fmt)

/-- C9 counterexample: the requested format string "JSON" is not a member
of {json, xml, csv}, yet construction succeeds, because line 28 lowercases
the format before the membership test — so "raises if and only if the
requested format string is not in {json, xml, csv}" fails in the
"if" direction. -/
theorem uppercase_format_accepted_cex :
    DataSchemaRandomizer.init "JSON" = .ok ⟨"json"⟩
    ∧ supported_formats.contains "JSON" = false := by
  constructor
  · rfl
  · rfl

/-- C9 (amended): construction raises the ValueError-kind UnsupportedFormat
error if and only if the LOWERCASED requested format string is not in
{json, xml, csv} (the check is case-insensitive); it is raised at
construction, before any processing. -/
theorem unsupported_format_error_iff (data_format : String) :
    (∃ e, DataSchemaRandomizer.init data_format = .error e)
      ↔ supported_formats.contains (strLower data_format) = false := by
  by_cases hc : supported_formats.contains (strLower data_format) = true
  · have hm : strLower data_format ∈ supported_formats := List.elem_iff.1 hc
    simp [DataSchemaRandomizer.init, hm]
  · have hm : strLower data_format ∉ supported_formats := fun hmem =>
      hc (List.elem_iff.2 hmem)
    simp [DataSchemaRandomizer.init, hm]

/-- A Python runtime object, for the heap-level model of
`randomize_json_schema` used to verify its frame property (the input is
never mutated).  Scalars carry immutable payloads; a list object holds the
addresses of its elements; a dict object holds its entries as string keys
paired with value addresses, in insertion order. -/
inductive PyObj where
  | str (s : String)
  | int (i : Int)
  | float (x : Rat)
  | bool (b : Bool)
  | list (elems : List Nat)
  | dict (entries : List (String × Nat))
  | none
deriving DecidableEq

/-- The Python heap: the object at address `a` is the `a`-th entry.
Allocation appends a fresh object; mutation is `List.set`. -/
abbrev Heap := List PyObj

/-- Python dict item assignment `d[k] = v` on a heap-level entry list:
overwrite in place if the key exists, else append. -/
def dictSetH (d : List (String × Nat)) (k : String) (a : Nat) : List (String × Nat) :=
  if d.any (fun kv => decide (kv.1 = k)) then
    d.map (fun kv => if kv.1 = k then (k, a) else kv)
  else d ++ [(k, a)]

mutual

/-- Heap-level `randomize_value` (lines 51-66): reads the object at address
`a`, allocates the randomized result as a fresh object at the end of the
heap, and returns the new heap, the result's address and the number of
generator calls.  `fuel` bounds the recursion (Python's call stack);
`Option.none` is returned when it runs out — on tree-shaped heaps a large
enough fuel always exists — or, in `pyRandJson`, for the TypeError raise.
A boolean object is randomized as an integer for the same reason as in
`randomize_value` (CPython `bool` is a subclass of `int`).  CPython interns
the immutable `None` singleton; the `return None` of line 66 is modelled as
allocating a fresh immutable `none` cell, which has the same observable
structure. -/
def pyRandValue (p : RVP) : Nat → Heap → Nat → Nat → Option (Heap × Nat × Nat)
  | 0, _, _, _ => Option.none
  | fuel + 1, h, a, n =>
      match h.get? a with
      | some (.str _) => some (h ++ [.str (p.word n)], h.length, 1)
      | some (.int _) => some (h ++ [.int (p.random_int n)], h.length, 1)
      | some (.bool _) => some (h ++ [.int (p.random_int n)], h.length, 1)
      | some (.float _) => some (h ++ [.float (p.pyfloat n)], h.length, 1)
      | some (.list elems) =>
          match pyRandList p fuel h elems n with
          | Option.none => Option.none
          | some (h2, addrs, c) => some (h2 ++ [.list addrs], h2.length, c)
      | some (.dict _) => pyRandJson p fuel h a n
      | some .none => some (h ++ [.none], h.length, 0)
      | Option.none => Option.none

/-- Heap-level form of the list comprehension on line 62. -/
def pyRandList (p : RVP) : Nat → Heap → List Nat → Nat → Option (Heap × List Nat × Nat)
  | 0, _, _, _ => Option.none
  | _ + 1, h, [], _ => some (h, [], 0)
  | fuel + 1, h, a :: rest, n =>
      match pyRandValue p fuel h a n with
      | Option.none => Option.none
      | some (h2, a2, c1) =>
          match pyRandList p fuel h2 rest (n + c1) with
          | Option.none => Option.none
          | some (h3, addrs, c2) => some (h3, a2 :: addrs, c1 + c2)

/-- Heap-level `randomize_json_schema` (lines 36-72): on a dict input the
fresh empty dict `randomized_data = {}` of line 68 is allocated and then
filled by the loop, which mutates only that fresh object; on a non-dict
input the TypeError raise is folded into `Option.none`. -/
def pyRandJson (p : RVP) : Nat → Heap → Nat → Nat → Option (Heap × Nat × Nat)
  | 0, _, _, _ => Option.none
  | fuel + 1, h, a, n =>
      match h.get? a with
      | some (.dict entries) =>
          match pyRandEntries p fuel (h ++ [.dict []]) h.length entries n with
          | Option.none => Option.none
          | some (h2, c) => some (h2, h.length, c)
      | _ => Option.none

/-- Heap-level form of the loop on lines 68-71: for each input entry,
randomize the value, draw the key word, and store the pair into the dict
object at address `da` (the only heap cell ever written in place). -/
def pyRandEntries (p : RVP) : Nat → Heap → Nat → List (String × Nat) → Nat →
    Option (Heap × Nat)
  | 0, _, _, _, _ => Option.none
  | _ + 1, h, _, [], _ => some (h, 0)
  | fuel + 1, h, da, (_, va) :: rest, n =>
      match pyRandValue p fuel h va n with
      | Option.none => Option.none
      | some (h2, a2, c1) =>
          match h2.get? da with
          | some (.dict cur) =>
              match pyRandEntries p fuel
                  (h2.set da (.dict (dictSetH cur (p.word (n + c1)) a2)))
                  da rest (n + c1 + 1) with
              | Option.none => Option.none
              | some (h3, c2) => some (h3, c1 + 1 + c2)
          | _ => Option.none

end

theorem take_set_of_le {α : Type} (l : List α) (a : Nat) (o : α) (k : Nat)
    (hk : k ≤ a) : (l.set a o).take k = l.take k := by
  induction l generalizing a k with
  | nil => simp
  | cons x rest ih =>
      cases a with
      | zero =>
          have hk0 : k = 0 := Nat.le_zero.1 hk
          subst hk0
          simp
      | succ a2 =>
          cases k with
          | zero => simp
          | succ k2 =>
              simp only [List.set, List.take, List.cons.injEq, true_and]
              exact ih a2 k2 (Nat.succ_le_succ_iff.1 hk)

theorem heapTake_length_le {α : Type} (h h2 : List α)
    (hp : h2.take h.length = h) : h.length ≤ h2.length := by
  have hl := congrArg List.length hp
  simp [List.length_take] at hl
  omega

theorem heapTake_trans {α : Type} (h h2 h3 : List α)
    (h12 : h2.take h.length = h) (h23 : h3.take h2.length = h2) :
    h3.take h.length = h := by
  have hle := heapTake_length_le h h2 h12
  calc h3.take h.length = (h3.take h2.length).take h.length := by
        rw [List.take_take, Nat.min_eq_left hle]
    _ = h2.take h.length := by rw [h23]
    _ = h := h12

theorem heapTake_mono {α : Type} (h h2 : List α) (k : Nat)
    (hp : h2.take h.length = h) (hk : k ≤ h.length) :
    h2.take k = h.take k := by
  rw [← hp, List.take_take, Nat.min_eq_left hk]

/-- The frame property of the heap-level model, for all four mutually
recursive functions at once, by induction on the fuel: a successful run
leaves every pre-existing heap cell unchanged (the old heap is a prefix of
the new one; for the entry loop, every cell below the — freshly
allocated — dict address `da` is unchanged), and the returned address is
fresh (at or beyond the old heap's end). -/
theorem pyRand_frame (p : RVP) : ∀ fuel : Nat,
    (∀ h a n h2 a2 c, pyRandValue p fuel h a n = some (h2, a2, c) →
      h2.take h.length = h ∧ h.length ≤ a2)
    ∧ (∀ h elems n h2 addrs c, pyRandList p fuel h elems n = some (h2, addrs, c) →
      h2.take h.length = h)
    ∧ (∀ h a n h2 a2 c, pyRandJson p fuel h a n = some (h2, a2, c) →
      h2.take h.length = h ∧ h.length ≤ a2)
    ∧ (∀ h da items n h2 c, da < h.length →
      pyRandEntries p fuel h da items n = some (h2, c) →
      (∀ k, k ≤ da → h2.take k = h.take k) ∧ h.length ≤ h2.length) := by
  intro fuel
  induction fuel with
  | zero =>
      refine ⟨?_, ?_, ?_, ?_⟩ <;> intros <;>
        simp_all [pyRandValue, pyRandList, pyRandJson, pyRandEntries]
  | succ fuel ih =>
      obtain ⟨ihv, ihl, ihj, ihe⟩ := ih
      have hjson : ∀ h a n h2 a2 c,
          pyRandJson p (fuel + 1) h a n = some (h2, a2, c) →
          h2.take h.length = h ∧ h.length ≤ a2 := by
        intro h a n h2 a2 c hrun
        simp only [pyRandJson] at hrun
        split at hrun
        · split at hrun
          · exact absurd hrun (by simp)
          · rename_i xo entries heqobj xe h3 c3 heqe
            simp only [Option.some.injEq, Prod.mk.injEq] at hrun
            obtain ⟨rfl, rfl, rfl⟩ := hrun
            have hda : h.length < (h ++ [PyObj.dict []]).length := by simp
            have hfr := ihe (h ++ [.dict []]) h.length entries n h3 c3 hda heqe
            constructor
            · have h1 := hfr.1 h.length (Nat.le_refl _)
              rw [h1, List.take_left]
            · exact Nat.le_refl _
        · exact absurd hrun (by simp)
      refine ⟨?_, ?_, hjson, ?_⟩
      · intro h a n h2 a2 c hrun
        simp only [pyRandValue] at hrun
        split at hrun
        · simp only [Option.some.injEq, Prod.mk.injEq] at hrun
          obtain ⟨rfl, rfl, rfl⟩ := hrun
          exact ⟨List.take_left _ _, Nat.le_refl _⟩
        · simp only [Option.some.injEq, Prod.mk.injEq] at hrun
          obtain ⟨rfl, rfl, rfl⟩ := hrun
          exact ⟨List.take_left _ _, Nat.le_refl _⟩
        · simp only [Option.some.injEq, Prod.mk.injEq] at hrun
          obtain ⟨rfl, rfl, rfl⟩ := hrun
          exact ⟨List.take_left _ _, Nat.le_refl _⟩
        · simp only [Option.some.injEq, Prod.mk.injEq] at hrun
          obtain ⟨rfl, rfl, rfl⟩ := hrun
          exact ⟨List.take_left _ _, Nat.le_refl _⟩
        · -- list object
          split at hrun
          · exact absurd hrun (by simp)
          · rename_i xo elems heqobj xl h3 addrs3 c3 heql
            simp only [Option.some.injEq, Prod.mk.injEq] at hrun
            obtain ⟨rfl, rfl, rfl⟩ := hrun
            have hfr := ihl h elems n h3 addrs3 c3 heql
            have hle := heapTake_length_le h h3 hfr
            constructor
            · rw [List.take_append_of_le_length hle]
              exact hfr
            · exact hle
        · -- dict object: delegated to randomize_json_schema
          exact ihj h a n h2 a2 c hrun
        · -- None object
          simp only [Option.some.injEq, Prod.mk.injEq] at hrun
          obtain ⟨rfl, rfl, rfl⟩ := hrun
          exact ⟨List.take_left _ _, Nat.le_refl _⟩
        · exact absurd hrun (by simp)
      · intro h elems n h2 addrs c hrun
        cases elems with
        | nil =>
            simp only [pyRandList, Option.some.injEq, Prod.mk.injEq] at hrun
            obtain ⟨rfl, rfl, rfl⟩ := hrun
            simp
        | cons a rest =>
            simp only [pyRandList] at hrun
            split at hrun
            · exact absurd hrun (by simp)
            · rename_i xv hB a2v c1 heqv
              split at hrun
              · exact absurd hrun (by simp)
              · rename_i xl h3 addrs3 c2 heql
                simp only [Option.some.injEq, Prod.mk.injEq] at hrun
                obtain ⟨rfl, rfl, rfl⟩ := hrun
                have hfrv := (ihv h a n hB a2v c1 heqv).1
                have hfrl := ihl hB rest (n + c1) h3 addrs3 c2 heql
                exact heapTake_trans h hB h3 hfrv hfrl
      · intro h da items n h2 c hda hrun
        cases items with
        | nil =>
            simp only [pyRandEntries, Option.some.injEq, Prod.mk.injEq] at hrun
            obtain ⟨rfl, rfl⟩ := hrun
            exact ⟨fun k _ => rfl, Nat.le_refl _⟩
        | cons kv rest =>
            obtain ⟨k0, va⟩ := kv
            simp only [pyRandEntries] at hrun
            split at hrun
            · exact absurd hrun (by simp)
            · rename_i xv hB a2v c1 heqv
              split at hrun
              · split at hrun
                · exact absurd hrun (by simp)
                · rename_i xd cur heqd xe h3 c2 heqe
                  simp only [Option.some.injEq, Prod.mk.injEq] at hrun
                  obtain ⟨rfl, rfl⟩ := hrun
                  have hfrv := (ihv h va n hB a2v c1 heqv).1
                  have hleB := heapTake_length_le h hB hfrv
                  have hdaB : da <
                      (hB.set da
                        (.dict (dictSetH cur (p.word (n + c1)) a2v))).length := by
                    simp
                    omega
                  have hfr := ihe _ da rest (n + c1 + 1) h3 c2 hdaB heqe
                  constructor
                  · intro k hk
                    have h1 := hfr.1 k hk
                    rw [h1, take_set_of_le _ _ _ _ hk]
                    exact heapTake_mono h hB k hfrv (by omega)
                  · have h2l := hfr.2
                    simp at h2l
                    omega
              · exact absurd hrun (by simp)

/-- C10: a successful run of the heap-level `randomize_json_schema` leaves
its input argument unchanged — every object that existed before the call
(the input mapping and every structure nested in it) is still exactly the
same afterwards, since the old heap is precisely the prefix of the new
heap — and the returned address is freshly allocated (at or beyond the old
heap's end), so the result is a newly built structure sharing no mutation
with the input. -/
theorem randomize_json_heap_frame (p : RVP) (fuel : Nat) (h : Heap) (a n : Nat)
    (h2 : Heap) (a2 c : Nat)
    (hrun : pyRandJson p fuel h a n = some (h2, a2, c)) :
    h2.take h.length = h ∧ h.length ≤ a2 :=
  (pyRand_frame p fuel).2.2.1 h a n h2 a2 c hrun

theorem randomize_json_heap_frame_witness :
    ([PyObj.int 1, PyObj.dict [("a", 0)], PyObj.dict [("x", 3)], PyObj.int 0].take
        ([PyObj.int 1, PyObj.dict [("a", 0)]] : Heap).length
      = [PyObj.int 1, PyObj.dict [("a", 0)]])
    ∧ ([PyObj.int 1, PyObj.dict [("a", 0)]] : Heap).length ≤ 2 :=
  randomize_json_heap_frame constProv 5 [PyObj.int 1, PyObj.dict [("a", 0)]] 1 0
    [PyObj.int 1, PyObj.dict [("a", 0)], PyObj.dict [("x", 3)], PyObj.int 0] 2 2
    (by simp [pyRandJson, pyRandEntries, pyRandValue, dictSetH, constProv])
